import Mathlib

/-!
Verification development for the scout-audit core pipeline.

Shallow embedding of the audit execution pipeline:
* findings classifier (`output_to_json`, `get_crates`, `split_findings` in
  `apps/cargo-scout-audit/src/startup.rs`),
* toolchain dispatcher re-exec branch (`run_scout` in `startup.rs`),
* plugin loader (`get_detectors_info` in
  `apps/cargo-scout-audit/src/utils/detectors_info.rs`),
* report summary builder (`summarize_findings`, `generate_summary_context` in
  `apps/cargo-scout-audit/src/output/markdown/generator.rs`),
* error telemetry forwarder (`print_error` in
  `clippy-wrapper-print-error/src/lib.rs`).

Rust panics are modelled as `Option.none` propagating outward; `anyhow::Result`
is modelled as `Except String`; `serde_json::Value` is modelled by `Json`
below; `std::collections::HashMap` is modelled by an association list with
overwrite-on-insert semantics (`amInsert` / `amGet`).
-/

namespace ScoutAudit

/-- Model of `serde_json::Value`.  Objects are association lists of fields;
values produced by serde parsing have distinct keys, but the model does not
require it. -/
inductive Json where
  | null : Json
  | bool : Bool → Json
  | num : Int → Json
  | str : String → Json
  | arr : List Json → Json
  | obj : List (String × Json) → Json
deriving Repr

namespace Json

/-- Model of `Value::get(key)`: field lookup on an object, `None` on any other
variant. -/
def getField : Json → String → Option Json
  | .obj fields, key => (fields.find? (fun p => p.1 = key)).map (fun p => p.2)
  | _, _ => none

/-- Model of the serde comparison `value == "literal"` (`PartialEq<str>` for
`Value`): true exactly when the value is a JSON string with that text. -/
def eqStr : Json → String → Bool
  | .str s, t => s == t
  | _, _ => false

/-- Model of `value[key] = v` (serde `IndexMut` with a string index): inserting
into an object replaces the first binding of the key or appends a new one;
indexing into `null` creates a fresh object; any other variant panics in Rust,
modelled as `none`. -/
def setField : Json → String → Json → Option Json
  | .obj fields, key, v =>
      some (.obj (if fields.any (fun p => p.1 = key)
        then fields.map (fun p => if p.1 = key then (key, v) else p)
        else fields ++ [(key, v)]))
  | .null, key, v => some (.obj [(key, v)])
  | _, _, _ => none

end Json

/-- Association-list model of `HashMap`: `insert` overwrites the existing
binding of the key in place, otherwise appends. -/
def amInsert {α : Type} : List (String × α) → String → α → List (String × α)
  | [], k, v => [(k, v)]
  | (k', v') :: rest, k, v =>
      if k' = k then (k, v) :: rest else (k', v') :: amInsert rest k v

/-- Association-list model of `HashMap::get`. -/
def amGet {α : Type} : List (String × α) → String → Option α
  | [], _ => none
  | (k', v') :: rest, k => if k' = k then some v' else amGet rest k

/-- Modelled from the spec: `json_to_string` (defined in
`output/raw_report.rs`, which is not among the provided sources) turns a JSON
value into display text; for a JSON string it is the underlying text without
quotes, for other values some total serialization.  Every claim below depends
only on the string case. -/
def json_to_string : Json → String
  | .str s => s
  | .null => "null"
  | .bool b => toString b
  | .num n => toString n
  | .arr _ => "<array>"
  | .obj _ => "<object>"

/-- Modelled from the spec: `json_to_string_opt` maps `json_to_string` over an
optional value (`output/raw_report.rs`, not among the provided sources). -/
def json_to_string_opt : Option Json → Option String
  | some v => some (json_to_string v)
  | none => none

/-- Collecting an iterator of `unwrap`ped parse results: all values when every
element is `some`, and the panic (`none`) of the first malformed element
otherwise. -/
def sequenceOpt {α : Type} : List (Option α) → Option (List α)
  | [] => some []
  | none :: _ => none
  | some x :: rest => (sequenceOpt rest).map (fun xs => x :: xs)

/-- `output_to_json` (startup.rs): parse every line of the captured driver
output with `serde_json::from_str(..).unwrap()`.  The serde parser is an
external collaborator, passed in as `parse`; the `.unwrap()` panic on a
malformed line is modelled as `none`. -/
def output_to_json (parse : String → Option Json) (lines : List String) :
    Option (List Json) :=
  sequenceOpt (lines.map parse)

/-- `get_crate_from_finding` (startup.rs): the owning compilation unit is
`finding.target.name`. -/
def get_crate_from_finding (finding : Json) : Option String :=
  json_to_string_opt ((finding.getField "target").bind
    (fun x => x.getField "name"))

/-- The ok-flag `get_crates` stores for a unit from one compiler message
(startup.rs): `level.is_none() || level.unwrap() != "error"`. -/
def level_ok (message : Json) : Bool :=
  match message.getField "level" with
  | none => true
  | some l => !(l.eqStr "error")

/-- One iteration of the loop body of `get_crates` (startup.rs). -/
def get_crates_step (ret : List (String × Bool)) (val : Json) :
    List (String × Bool) :=
  match val.getField "reason", val.getField "message" with
  | some reason, some message =>
      if !(reason.eqStr "compiler-message") then ret
      else
        match get_crate_from_finding val with
        | none => ret
        | some name => amInsert ret name (level_ok message)
  | _, _ => ret

/-- `get_crates` (startup.rs): fold the compiler-message records of the raw
diagnostic stream into the compile-status map, `true` meaning the last message of the unit was not error-level. -/
def get_crates (output : List Json) : List (String × Bool) :=
  output.foldl get_crates_step []

/-- Routing decision of the `split_findings` loop body (startup.rs) for one
parsed side-channel finding: records lacking a `crate` or `message` field are
skipped (`dropped`); otherwise the message is tagged with its crate and routed
by the compile-status map, absent units defaulting to successful
(`crates.get(&krate).unwrap_or(&true)`).  `panic` models the Rust panic of
`message["crate"] = ...` on a non-object, non-null message. -/
inductive RouteResult where
  | dropped : RouteResult
  | toSucc : Json → RouteResult
  | toFail : Json → RouteResult
  | panic : RouteResult
deriving Repr

/-- The body of the `for finding in findings` loop of `split_findings`
(startup.rs), as a routing decision. -/
def route_finding (crates : List (String × Bool)) (finding : Json) :
    RouteResult :=
  match finding.getField "crate", finding.getField "message" with
  | some kj, some m =>
      let krate := json_to_string kj
      match m.setField "crate" (Json.str krate) with
      | none => .panic
      | some message =>
          if (amGet crates krate).getD true then .toSucc message
          else .toFail message
  | _, _ => .dropped

/-- One iteration of the `split_findings` loop, threading the two output
vectors `(successful_findings, failed_findings)`. -/
def split_step (crates : List (String × Bool)) (acc : List Json × List Json)
    (finding : Json) : Option (List Json × List Json) :=
  match route_finding crates finding with
  | .dropped => some acc
  | .toSucc m => some (acc.1 ++ [m], acc.2)
  | .toFail m => some (acc.1, acc.2 ++ [m])
  | .panic => none

/-- `split_findings` (startup.rs): parse every raw side-channel finding with
`from_str(..).unwrap()` (panic on a malformed record modelled as `none`), then
partition the tagged messages into `(successful_findings, failed_findings)`
using the compile-status map. -/
def split_findings (parse : String → Option Json) (raw_findings : List String)
    (crates : List (String × Bool)) : Option (List Json × List Json) :=
  match sequenceOpt (raw_findings.map parse) with
  | none => none
  | some findings => findings.foldlM (split_step crates) ([], [])

/-! Plugin loader (`utils/detectors_info.rs`) -/

/-- Model of `RawLintInfo` (detectors_info.rs): a fixed record of
null-terminated byte strings populated by the `lint_info` export of the plugin.
Each field is `some s` when `CStr::to_str` decodes it to the text `s`, and
`none` when the bytes are not valid UTF-8. -/
structure RawLintInfo where
  id : Option String
  name : Option String
  short_message : Option String
  long_message : Option String
  severity : Option String
  help : Option String
  vulnerability_class : Option String
deriving Repr, BEq, DecidableEq

/-- `LintInfo` (detectors_info.rs): the validated, owned metadata record. -/
structure LintInfo where
  id : String
  name : String
  short_message : String
  long_message : String
  severity : String
  help : String
  vulnerability_class : String
deriving Repr, BEq, DecidableEq

/-- Model of `CStr::to_str` on one metadata field (`none` = invalid UTF-8,
which `TryFrom<&RawLintInfo> for LintInfo` turns into an error). -/
def decodeField : Option String → Except String String
  | some s => .ok s
  | none => .error "invalid utf-8 sequence"

/-- `TryFrom<&RawLintInfo> for LintInfo` (detectors_info.rs): decode every
field, failing on the first invalid one. -/
def lintInfoTryFrom (info : RawLintInfo) : Except String LintInfo := do
  let id ← decodeField info.id
  let name ← decodeField info.name
  let short_message ← decodeField info.short_message
  let long_message ← decodeField info.long_message
  let severity ← decodeField info.severity
  let help ← decodeField info.help
  let vulnerability_class ← decodeField info.vulnerability_class
  pure ⟨id, name, short_message, long_message, severity, help,
    vulnerability_class⟩

/-- What dynamic loading yields for one detector path: `Library::new` may fail
(`openErr`), the mandatory `lint_info` symbol may be missing (`lintInfoSymErr`),
or the library loads and its `lint_info` export populates a `RawLintInfo`;
`hasCustomDetector` records whether the optional `custom_detector` symbol
resolves. -/
inductive DylibOutcome where
  | openErr : String → DylibOutcome
  | lintInfoSymErr : String → DylibOutcome
  | loaded : RawLintInfo → Bool → DylibOutcome
deriving Repr

/-- The `for detector_path in detectors_paths` loop of `get_detectors_info`
(detectors_info.rs).  A `CustomLint` value is identified by the path of the
library owning its entry point.  Any per-plugin failure returns `Err`
immediately through `?`, abandoning the rest of the list. -/
def get_detectors_info_go (plugins : List (String × DylibOutcome))
    (lint_store : List (String × LintInfo))
    (custom_dectectors : List (String × String)) :
    Except String (List (String × LintInfo) × List (String × String)) :=
  match plugins with
  | [] => .ok (lint_store, custom_dectectors)
  | (path, outcome) :: rest =>
      match outcome with
      | .openErr e =>
          .error ("Failed to load library " ++ path ++ ": " ++ e)
      | .lintInfoSymErr e =>
          .error ("Failed to get lint_info function from " ++ path ++ ": " ++ e)
      | .loaded raw hasCustomDetector =>
          match lintInfoTryFrom raw with
          | .error e =>
              .error ("Failed to convert RawLintInfo from " ++ path ++ ": " ++ e)
          | .ok lint_info =>
              get_detectors_info_go rest
                (amInsert lint_store lint_info.id lint_info)
                (if hasCustomDetector then
                  amInsert custom_dectectors lint_info.id path
                else custom_dectectors)

/-- `get_detectors_info` (detectors_info.rs): load every detector library and
build the `id → LintInfo` store and the `id → CustomLint` store, keyed by the
identifier declared in the metadata of each plugin itself. -/
def get_detectors_info (plugins : List (String × DylibOutcome)) :
    Except String (List (String × LintInfo) × List (String × String)) :=
  get_detectors_info_go plugins [] []

/-! Toolchain dispatcher re-exec branch (`startup.rs`) -/

/-- Modelled from the spec: `run_scout_in_nightly`
(scout/nightly_runner.rs, not among the provided sources) compares the active
toolchain with the required one; when they differ it spawns a child process
re-invoking the same command line under the required toolchain and returns
`some child`, otherwise it returns `none` and the pipeline continues
in-process.  A child process is represented by its `wait` outcome: an error,
or the exit code of the child. -/
def run_scout_in_nightly (active required : String)
    (child : Except String Nat) : Option (Except String Nat) :=
  if active = required then none else some child

/-- The re-exec branch at the top of `run_scout` (startup.rs):
`if let Some(mut child) = run_scout_in_nightly(..)? { child.wait()?;
return Ok(()); }`.  Returns `none` when the toolchains match (no re-exec) and
`some r` when `run_scout` returns early with `r`. -/
def run_scout_reexec (active required : String)
    (wait_result : Except String Nat) : Option (Except String Unit) :=
  match run_scout_in_nightly active required wait_result with
  | none => none
  | some child =>
      some (match child with
        | .error e =>
            .error ("Failed to wait for nightly child process: " ++ e)
        | .ok _ => .ok ())

/-- Exit code of the parent process for the result of `run_scout`: an `anyhow`
main exits with 0 on `Ok` and a nonzero code (modelled as 1) on `Err`. -/
def parent_exit_code : Except String Unit → Nat
  | .ok _ => 0
  | .error _ => 1

/-! Report summary builder (`output/markdown/generator.rs`) -/

/-- Modelled from the spec: the report data model (spec §3; `output/report.rs`
is not among the provided sources), restricted to the fields used by
`generator.rs`.  A vulnerability descriptor carries a severity tag. -/
structure Vulnerability where
  severity : String
deriving Repr, BEq, DecidableEq

/-- Modelled from the spec: a category groups findings by detector identity
and carries its vulnerability descriptors (spec §3). -/
structure Category where
  id : String
  name : String
  vulnerabilities : List Vulnerability
deriving Repr, BEq, DecidableEq

/-- Modelled from the spec: one classified finding, reduced to the category
identifier used for grouping (spec §3). -/
structure Finding where
  category_id : String
deriving Repr, BEq, DecidableEq

/-- Modelled from the spec: the report aggregate — generation date, ordered
category list, and the trustworthy findings (spec §3). -/
structure Report where
  date : String
  categories : List Category
  findings : List Finding
deriving Repr, BEq, DecidableEq

/-- `SummaryCategory` (generator.rs). -/
structure SummaryCategory where
  name : String
  link : String
  results_count : Nat
  severity : String
deriving Repr, BEq, DecidableEq

/-- `SummaryContext` (generator.rs). -/
structure SummaryContext where
  date : String
  categories : List SummaryCategory
deriving Repr, BEq, DecidableEq

/-- Modelled from the spec: `utils::capitalize` (output/utils.rs, not among
the provided sources) upper-cases the first character. -/
def capitalize (s : String) : String :=
  match s.data with
  | [] => ""
  | c :: cs => String.mk (c.toUpper :: cs)

/-- Modelled from the spec: `utils::sanitize_category_name` (output/utils.rs,
not among the provided sources) derives an anchor link from a display name;
no claim depends on its exact behavior. -/
def sanitize_category_name (name : String) : String :=
  name.toLower

/-- The severity string stored for a category by `summarize_findings`
(generator.rs): the capitalized severity of the first vulnerability
descriptor, or the empty string for a category with none
(`unwrap_or_default`). -/
def catSeverity (c : Category) : String :=
  ((c.vulnerabilities.head?.map (fun v => capitalize v.severity)).getD "")

/-- One iteration of the `for finding in findings` loop of
`summarize_findings` (generator.rs): findings whose `category_id` matches no
category are skipped; otherwise the entry of the category is created at
`(0, severity)` if absent (`entry(..).or_insert`) and its count is bumped. -/
def summarize_step (categories : List Category)
    (summary : List (String × (Nat × String))) (finding : Finding) :
    List (String × (Nat × String)) :=
  match categories.find? (fun c => c.id = finding.category_id) with
  | none => summary
  | some category =>
      let severity := catSeverity category
      match amGet summary category.id with
      | some (n, s) => amInsert summary category.id (n + 1, s)
      | none => amInsert summary category.id (1, severity)

/-- `summarize_findings` (generator.rs): per-category `(count, severity)`
map over the findings of the report. -/
def summarize_findings (categories : List Category)
    (findings : List Finding) : List (String × (Nat × String)) :=
  findings.foldl (summarize_step categories) []

/-- `generate_summary_context` (generator.rs): one `SummaryCategory` per
report category that has an entry in the summary map, in the canonical
category order. -/
def generate_summary_context (report : Report) : SummaryContext :=
  let summary_map := summarize_findings report.categories report.findings
  { date := report.date
    categories := report.categories.filterMap (fun category =>
      (amGet summary_map category.id).map (fun p =>
        { name := category.name
          link := sanitize_category_name category.name
          results_count := p.1
          severity := p.2 })) }

/-! Error telemetry forwarder (`clippy-wrapper-print-error/src/lib.rs`) -/

/-- Observable behavior of the work item `cb`: it either returns normally or
panics with a payload. -/
inductive WorkResult where
  | normal : WorkResult
  | panicked : String → WorkResult
deriving Repr, BEq, DecidableEq

/-- Body of the telemetry HTTP POST: the raw captured text, or — when the
captured text parses as JSON — the wrapper object
`{"crate": krate, "message": json}` (serialization left at the interface). -/
inductive RelayBody where
  | raw : String → RelayBody
  | wrapped : String → Json → RelayBody
deriving Repr

/-- Environment `print_error` runs in: the `SCOUT_PORT_NUMBER` variable,
whether `PipedStderr::capture()` succeeds, the `CARGO_CRATE_NAME` variable,
the first line read back from the private pipe after the work item ran, the
serde parser, and whether the HTTP send succeeds. -/
structure TelemetryEnv where
  port : Option String
  pipe_ok : Bool
  crate_name : Option String
  captured_line : String
  parse : String → Option Json
  send_ok : Bool

/-- Observable trace of one `print_error` call: attempted network posts
`(url, body)`, whether the output-capture channel was redirected and then
restored, and the termination of the call itself (normal return, or the re-raised
panic of the work item). -/
structure TelemetryTrace where
  posts : List (String × RelayBody)
  capture_redirected : Bool
  capture_restored : Bool
  result : WorkResult
deriving Repr

/-- `print_error` (clippy-wrapper-print-error/src/lib.rs): with no port
configured, or when setting up the pipe fails, just run `cb`; otherwise
redirect capture, run `cb` under `catch_unwind`, restore capture, read the
captured line, relay it (wrapped if parseable, raw otherwise) ignoring the
send result, and finally re-raise the panic if `cb` panicked. -/
def print_error (env : TelemetryEnv) (work : WorkResult) : TelemetryTrace :=
  match env.port with
  | none =>
      { posts := [], capture_redirected := false, capture_restored := false
        result := work }
  | some port =>
      if !env.pipe_ok then
        { posts := [], capture_redirected := false, capture_restored := false
          result := work }
      else
        let captured := env.captured_line
        let krate := (env.crate_name).getD ""
        let body :=
          match env.parse captured with
          | some j => RelayBody.wrapped krate j
          | none => RelayBody.raw captured
        { posts := [("http://127.0.0.1:" ++ port ++ "/vuln", body)]
          capture_redirected := true
          capture_restored := true
          result := work }

/-! Concrete inputs used by counterexamples and witnesses -/

/-- A compiler message of error level naming the unit `pallet_a`. -/
def err_msg_pallet_a : Json :=
  Json.obj [("reason", .str "compiler-message"),
    ("message", Json.obj [("level", .str "error")]),
    ("target", Json.obj [("name", .str "pallet_a")])]

/-- A compiler message of warning level naming the unit `pallet_a`. -/
def warn_msg_pallet_a : Json :=
  Json.obj [("reason", .str "compiler-message"),
    ("message", Json.obj [("level", .str "warning")]),
    ("target", Json.obj [("name", .str "pallet_a")])]

/-! Helper lemmas on the association-list map -/

theorem amGet_amInsert_self {α : Type} (m : List (String × α)) (k : String)
    (v : α) : amGet (amInsert m k v) k = some v := by
  induction m with
  | nil => simp [amInsert, amGet]
  | cons hd tl ih =>
      obtain ⟨k', v'⟩ := hd
      by_cases h : k' = k
      · simp [amInsert, amGet, h]
      · simp [amInsert, amGet, h, ih]

theorem amGet_amInsert_ne {α : Type} (m : List (String × α)) (k k' : String)
    (v : α) (h : k' ≠ k) : amGet (amInsert m k v) k' = amGet m k' := by
  have h' : ¬(k = k') := fun hh => h hh.symm
  induction m with
  | nil => simp [amInsert, amGet, h']
  | cons hd tl ih =>
      obtain ⟨k₀, v₀⟩ := hd
      by_cases h0 : k₀ = k
      · subst h0
        simp [amInsert, amGet, h']
      · simp [amInsert, amGet, h0, ih]

/-! C1 — unit status monotonicity under classification -/

/-- C1 counterexample: an error-level message marks `pallet_a` failed, but a
later non-error message naming `pallet_a` resets its status to successful —
`get_crates` keeps only the status of the last message, so the claimed
monotonicity is false on this stream. -/
theorem get_crates_not_monotone_cex :
    amGet (get_crates [err_msg_pallet_a]) "pallet_a" = some false ∧
    amGet (get_crates [err_msg_pallet_a, warn_msg_pallet_a]) "pallet_a"
      = some true := by
  constructor <;> rfl

/-- C1 (amended): the status `get_crates` computes for a unit is the status of
the last compiler message naming that unit — appending one well-formed
compiler message naming `u` to any stream makes the status of `u` the ok-flag
of that message, regardless of any earlier error. -/
theorem get_crates_last_message_wins (output : List Json) (val message : Json)
    (u : String)
    (hr : val.getField "reason" = some (Json.str "compiler-message"))
    (hm : val.getField "message" = some message)
    (hn : get_crate_from_finding val = some u) :
    amGet (get_crates (output ++ [val])) u = some (level_ok message) := by
  unfold get_crates
  rw [List.foldl_append, List.foldl_cons, List.foldl_nil]
  unfold get_crates_step
  rw [hr, hm, hn]
  simp [Json.eqStr, amGet_amInsert_self]

/-- C1 amended-claim witness: the warning after the error leaves `pallet_a`
with ok-status `true`. -/
theorem get_crates_last_message_wins_witness :
    amGet (get_crates ([err_msg_pallet_a] ++ [warn_msg_pallet_a])) "pallet_a"
      = some (level_ok (Json.obj [("level", .str "warning")])) :=
  get_crates_last_message_wins [err_msg_pallet_a] warn_msg_pallet_a
    (Json.obj [("level", .str "warning")]) "pallet_a" rfl rfl rfl

/-! C3 — exit-code propagation of the re-exec branch -/

/-- C3 counterexample: the active toolchain differs from the required one and
the child exits with code 7; `run_scout` discards the exit status of the child
(`child.wait()?; return Ok(())`), so the parent exits with 0, not 7. -/
theorem run_scout_reexec_exit_code_cex :
    (run_scout_reexec "stable" "nightly-2024-07-11"
        (Except.ok 7)).map parent_exit_code = some 0 ∧
    (run_scout_reexec "stable" "nightly-2024-07-11"
        (Except.ok 7)).map parent_exit_code ≠ some 7 := by
  constructor
  · rfl
  · intro h
    simp [run_scout_reexec, run_scout_in_nightly, parent_exit_code] at h

/-- C3 (amended): when the toolchains differ, the dispatcher blocks until the
child exits and then returns success — the parent exit code is 0 for every
child exit code, not the exit code of the child. -/
theorem run_scout_reexec_returns_zero (active required : String) (code : Nat)
    (hne : active ≠ required) :
    (run_scout_reexec active required (Except.ok code)).map parent_exit_code
      = some 0 := by
  simp [run_scout_reexec, run_scout_in_nightly, hne, parent_exit_code]

/-- C3 amended-claim witness at child exit code 7. -/
theorem run_scout_reexec_returns_zero_witness :
    (run_scout_reexec "stable" "nightly-2024-07-11"
        (Except.ok 7)).map parent_exit_code = some 0 :=
  run_scout_reexec_returns_zero "stable" "nightly-2024-07-11" 7 (by decide)

/-! C2 — per-plugin loader failure handling -/

/-- A plugin metadata record that decodes successfully for a given id. -/
def demo_raw_lint (i : String) : RawLintInfo :=
  ⟨some i, some "detector name", some "short", some "long", some "medium",
    some "help text", some "Arithmetic"⟩

/-- C2 counterexample: the first library fails to open and a valid plugin
follows in the same batch; `get_detectors_info` returns an error naming the
failed path and loads nothing — the batch is aborted instead of continuing
with the remaining plugin. -/
theorem loader_open_failure_aborts_batch_cex :
    get_detectors_info [("p1.so", DylibOutcome.openErr "no such file"),
        ("p2.so", DylibOutcome.loaded (demo_raw_lint "detector_a") false)]
      = Except.error "Failed to load library p1.so: no such file" := by
  rfl

/-- C2 (amended): when opening a plugin fails, or its mandatory `lint_info`
export is missing, the loader reports an error naming that plugin path and
aborts the whole load — no remaining plugin in the batch is processed and no
partial result is returned. -/
theorem get_detectors_info_failure_is_fatal (path cause : String)
    (rest : List (String × DylibOutcome)) :
    get_detectors_info ((path, DylibOutcome.openErr cause) :: rest)
        = Except.error ("Failed to load library " ++ path ++ ": " ++ cause) ∧
    get_detectors_info ((path, DylibOutcome.lintInfoSymErr cause) :: rest)
        = Except.error
            ("Failed to get lint_info function from " ++ path ++ ": "
              ++ cause) :=
  ⟨rfl, rfl⟩

/-! C8 — telemetry forwarder with no listener configured -/

/-- C8: with no listener port configured, `print_error` just invokes the work
item: no network post is attempted, no capture redirection happens, and the
work item returns or panics exactly as it would on its own. -/
theorem print_error_no_listener (pipe_ok : Bool) (crate_name : Option String)
    (captured : String) (parse : String → Option Json) (send_ok : Bool)
    (work : WorkResult) :
    print_error ⟨none, pipe_ok, crate_name, captured, parse, send_ok⟩ work
      = ⟨[], false, false, work⟩ :=
  rfl

/-! C9 — panic handling under an active listener -/

/-- C9: with a listener configured and a work item that panics, `print_error`
restores the capture channel, attempts exactly one relay post (whose own
success or failure, `send_ok`, does not change anything observable), and then
re-raises the original panic. -/
theorem print_error_panic_relay_rethrow (port : String)
    (crate_name : Option String) (captured : String)
    (parse : String → Option Json) (send_ok : Bool) (payload : String) :
    (print_error ⟨some port, true, crate_name, captured, parse, send_ok⟩
        (WorkResult.panicked payload)).capture_restored = true ∧
    (print_error ⟨some port, true, crate_name, captured, parse, send_ok⟩
        (WorkResult.panicked payload)).posts.length = 1 ∧
    (print_error ⟨some port, true, crate_name, captured, parse, send_ok⟩
        (WorkResult.panicked payload)).result
      = WorkResult.panicked payload := by
  refine ⟨rfl, ?_, rfl⟩
  show (print_error _ _).posts.length = 1
  unfold print_error
  cases h : parse captured <;> simp [h]

/-! C4 — behavior of classification on malformed diagnostic lines -/

/-- A stand-in for the serde line parser in concrete scenarios: it parses the
well-formed line `{}` to an empty object and fails on everything else, as
`serde_json::from_str` fails on text that is not JSON. -/
def demo_parse : String → Option Json :=
  fun s => if s = "{}" then some (Json.obj []) else none

/-- C4 counterexample: a stream with one well-formed and one malformed line.
`output_to_json` panics (modelled as `none`): the malformed line is not
skipped and the well-formed line is not classified. -/
theorem output_to_json_malformed_cex :
    demo_parse "not json" = none ∧
    output_to_json demo_parse ["{}", "not json"] = none := by
  constructor <;> rfl

/-- C4 (amended): classification is all-or-nothing — `output_to_json` yields a
parsed stream exactly when every line parses, and panics (aborts) as soon as
any line is malformed, instead of skipping it. -/
theorem output_to_json_all_or_nothing (parse : String → Option Json)
    (lines : List String) :
    (output_to_json parse lines).isSome
      = lines.all (fun l => (parse l).isSome) := by
  induction lines with
  | nil => rfl
  | cons l ls ih =>
      rw [List.all_cons, ← ih]
      cases hp : parse l with
      | none => simp [output_to_json, sequenceOpt, hp]
      | some v =>
          cases h2 : output_to_json parse ls with
          | none =>
              simp only [output_to_json, List.map_cons] at h2 ⊢
              simp [sequenceOpt, hp, h2]
          | some vs =>
              simp only [output_to_json, List.map_cons] at h2 ⊢
              simp [sequenceOpt, hp, h2]

/-! Characterization of the `split_findings` fold -/

/-- The messages `split_findings` routes to `successful_findings`. -/
def succ_of (crates : List (String × Bool)) (findings : List Json) :
    List Json :=
  findings.filterMap (fun f =>
    match route_finding crates f with
    | .toSucc m => some m
    | _ => none)

/-- The messages `split_findings` routes to `failed_findings`. -/
def fail_of (crates : List (String × Bool)) (findings : List Json) :
    List Json :=
  findings.filterMap (fun f =>
    match route_finding crates f with
    | .toFail m => some m
    | _ => none)

/-- Whether routing a finding panics (non-object, non-null message). -/
def routes_panic (crates : List (String × Bool)) (f : Json) : Bool :=
  match route_finding crates f with
  | .panic => true
  | _ => false

theorem split_foldlM_eq (crates : List (String × Bool)) :
    ∀ (findings : List Json) (a b : List Json),
      findings.foldlM (split_step crates) (a, b)
        = if findings.all (fun f => !(routes_panic crates f))
          then some (a ++ succ_of crates findings,
            b ++ fail_of crates findings)
          else none := by
  intro findings
  induction findings with
  | nil => intro a b; simp [succ_of, fail_of]
  | cons f fs ih =>
      intro a b
      cases hr : route_finding crates f <;>
        simp [split_step, hr, routes_panic, succ_of, fail_of, ih,
          List.filterMap_cons]

theorem split_findings_eq (parse : String → Option Json)
    (raw_findings : List String) (crates : List (String × Bool))
    (findings : List Json)
    (h : sequenceOpt (raw_findings.map parse) = some findings) :
    split_findings parse raw_findings crates
      = if findings.all (fun f => !(routes_panic crates f))
        then some (succ_of crates findings, fail_of crates findings)
        else none := by
  rw [split_findings, h]
  simpa using split_foldlM_eq crates findings [] []

theorem sequenceOpt_mem {α : Type} :
    ∀ (xs : List (Option α)) (ys : List α), sequenceOpt xs = some ys →
      ∀ x ∈ xs, ∃ y, x = some y ∧ y ∈ ys := by
  intro xs
  induction xs with
  | nil => intro ys _ x hx; cases hx
  | cons o os ih =>
      intro ys h x hx
      cases o with
      | none => simp [sequenceOpt] at h
      | some v =>
          cases h2 : sequenceOpt os with
          | none => rw [sequenceOpt, h2] at h; simp at h
          | some tl =>
              rw [sequenceOpt, h2] at h
              simp only [Option.map_some', Option.some_inj] at h
              subst h
              rcases List.mem_cons.mp hx with rfl | hmem
              · exact ⟨v, rfl, List.mem_cons_self _ _⟩
              · obtain ⟨y, hy, hmem'⟩ := ih tl h2 x hmem
                exact ⟨y, hy, List.mem_cons_of_mem _ hmem'⟩

theorem sequenceOpt_length {α : Type} :
    ∀ (xs : List (Option α)) (ys : List α), sequenceOpt xs = some ys →
      ys.length = xs.length := by
  intro xs
  induction xs with
  | nil =>
      intro ys h
      rw [sequenceOpt] at h
      simp only [Option.some_inj] at h
      simp [← h]
  | cons o os ih =>
      intro ys h
      cases o with
      | none => simp [sequenceOpt] at h
      | some v =>
          cases h2 : sequenceOpt os with
          | none => rw [sequenceOpt, h2] at h; simp at h
          | some tl =>
              rw [sequenceOpt, h2] at h
              simp only [Option.map_some', Option.some_inj] at h
              subst h
              simp [ih tl h2]

/-! C5 — findings of units absent from the compile-status map -/

/-- C5: a finding whose declared owning unit is absent from the compile-status
map is routed to the trustworthy (`successful_findings`) list — the decision
is `toSucc`, never `toFail`, and the tagged message is in the returned
trustworthy list. -/
theorem split_findings_absent_crate_trustworthy
    (parse : String → Option Json) (raw_findings : List String)
    (crates : List (String × Bool)) (succ fail : List Json) (s : String)
    (f kj m : Json)
    (hsplit : split_findings parse raw_findings crates = some (succ, fail))
    (hs : s ∈ raw_findings) (hf : parse s = some f)
    (hk : f.getField "crate" = some kj)
    (hm : f.getField "message" = some m)
    (habsent : amGet crates (json_to_string kj) = none) :
    ∃ tagged, m.setField "crate" (Json.str (json_to_string kj)) = some tagged ∧
      route_finding crates f = RouteResult.toSucc tagged ∧ tagged ∈ succ := by
  cases hparsed : sequenceOpt (raw_findings.map parse) with
  | none => rw [split_findings, hparsed] at hsplit; simp at hsplit
  | some findings =>
      have heq := split_findings_eq parse raw_findings crates findings hparsed
      rw [heq] at hsplit
      by_cases hall : findings.all (fun f => !(routes_panic crates f)) = true
      · rw [if_pos hall] at hsplit
        obtain ⟨hsucc, hfail⟩ : succ_of crates findings = succ ∧
            fail_of crates findings = fail := by
          have := hsplit
          simp only [Option.some_inj, Prod.mk.injEq] at this
          exact this
        have hmem : f ∈ findings := by
          have hxs : some f ∈ raw_findings.map parse := by
            rw [← hf]; exact List.mem_map_of_mem parse hs
          obtain ⟨y, hy, hymem⟩ := sequenceOpt_mem _ _ hparsed _ hxs
          cases hy; exact hymem
        cases hset : m.setField "crate" (Json.str (json_to_string kj)) with
        | none =>
            exfalso
            have hpan : routes_panic crates f = true := by
              simp [routes_panic, route_finding, hk, hm, hset]
            have := List.all_eq_true.mp hall f hmem
            rw [hpan] at this
            simp at this
        | some tagged =>
            refine ⟨tagged, rfl, ?_, ?_⟩
            · simp [route_finding, hk, hm, hset, habsent]
            · rw [← hsucc]
              apply List.mem_filterMap.mpr
              refine ⟨f, hmem, ?_⟩
              simp [route_finding, hk, hm, hset, habsent]
      · rw [if_neg hall] at hsplit; simp at hsplit

/-- A finding naming a unit absent from the status map, for C5. -/
def demo_finding_absent : Json :=
  Json.obj [("crate", .str "pallet_b"), ("message", Json.obj [("x", .num 1)])]

/-- C5 witness: with a status map that only mentions `pallet_a`, the finding
for `pallet_b` is routed to the trustworthy list. -/
theorem split_findings_absent_crate_trustworthy_witness :
    ∃ tagged,
      (Json.obj [("x", Json.num 1)]).setField "crate"
          (Json.str (json_to_string (Json.str "pallet_b"))) = some tagged ∧
      route_finding [("pallet_a", false)] demo_finding_absent
        = RouteResult.toSucc tagged ∧
      tagged ∈ [Json.obj [("x", Json.num 1), ("crate", Json.str "pallet_b")]] :=
  split_findings_absent_crate_trustworthy
    (fun _ => some demo_finding_absent) ["line"] [("pallet_a", false)]
    [Json.obj [("x", Json.num 1), ("crate", Json.str "pallet_b")]] []
    "line" demo_finding_absent (Json.str "pallet_b")
    (Json.obj [("x", Json.num 1)])
    rfl (List.mem_singleton.mpr rfl) rfl rfl rfl rfl

/-! C10 — findings lacking a crate or message field are silently dropped -/

theorem split_sizes_le (crates : List (String × Bool)) :
    ∀ findings : List Json,
      (succ_of crates findings).length + (fail_of crates findings).length
        ≤ findings.length := by
  intro findings
  induction findings with
  | nil => simp [succ_of, fail_of]
  | cons g fs ih =>
      cases hr : route_finding crates g <;>
        simp [succ_of, fail_of, List.filterMap_cons, hr] <;>
        simp [succ_of, fail_of] at ih <;> omega

theorem split_sizes_lt (crates : List (String × Bool)) :
    ∀ (findings : List Json) (f : Json), f ∈ findings →
      route_finding crates f = RouteResult.dropped →
      (succ_of crates findings).length + (fail_of crates findings).length
        < findings.length := by
  intro findings
  induction findings with
  | nil => intro f hf; cases hf
  | cons g fs ih =>
      intro f hf hd
      rcases List.mem_cons.mp hf with rfl | hmem
      · have hle := split_sizes_le crates fs
        simp [succ_of, fail_of, List.filterMap_cons, hd]
        simp [succ_of, fail_of] at hle
        omega
      · have hlt := ih f hmem hd
        simp [succ_of, fail_of] at hlt
        cases hr : route_finding crates g <;>
          simp [succ_of, fail_of, List.filterMap_cons, hr] <;> omega

/-- C10: a parsed side-channel finding lacking a `crate` field or a `message`
field is silently dropped by `split_findings`: it reaches neither output list,
so the two lists together are strictly shorter than the input. -/
theorem split_findings_missing_fields_dropped
    (parse : String → Option Json) (raw_findings : List String)
    (crates : List (String × Bool)) (succ fail : List Json) (s : String)
    (f : Json)
    (hsplit : split_findings parse raw_findings crates = some (succ, fail))
    (hs : s ∈ raw_findings) (hf : parse s = some f)
    (hmiss : f.getField "crate" = none ∨ f.getField "message" = none) :
    succ.length + fail.length < raw_findings.length := by
  cases hparsed : sequenceOpt (raw_findings.map parse) with
  | none => rw [split_findings, hparsed] at hsplit; simp at hsplit
  | some findings =>
      have heq := split_findings_eq parse raw_findings crates findings hparsed
      rw [heq] at hsplit
      by_cases hall : findings.all (fun f => !(routes_panic crates f)) = true
      · rw [if_pos hall] at hsplit
        obtain ⟨hsucc, hfail⟩ : succ_of crates findings = succ ∧
            fail_of crates findings = fail := by
          have := hsplit
          simp only [Option.some_inj, Prod.mk.injEq] at this
          exact this
        have hmem : f ∈ findings := by
          have hxs : some f ∈ raw_findings.map parse := by
            rw [← hf]; exact List.mem_map_of_mem parse hs
          obtain ⟨y, hy, hymem⟩ := sequenceOpt_mem _ _ hparsed _ hxs
          cases hy; exact hymem
        have hdrop : route_finding crates f = RouteResult.dropped := by
          rcases hmiss with hc | hm
          · rw [route_finding, hc]
          · rw [route_finding, hm]
            cases f.getField "crate" <;> rfl
        have hlen : findings.length = raw_findings.length := by
          have := sequenceOpt_length _ _ hparsed
          simpa using this
        rw [← hsucc, ← hfail, ← hlen]
        exact split_sizes_lt crates findings f hmem hdrop
      · rw [if_neg hall] at hsplit; simp at hsplit

/-- A finding record with neither a `crate` nor a `message` field. -/
def demo_finding_fieldless : Json := Json.obj [("other", .str "x")]

/-- C10 witness: one fieldless finding yields empty output lists, strictly
fewer than the one input record. -/
theorem split_findings_missing_fields_dropped_witness :
    (0 : Nat) + (0 : Nat) < (1 : Nat) :=
  split_findings_missing_fields_dropped
    (fun _ => some demo_finding_fieldless) ["rec"] [] [] [] "rec"
    demo_finding_fieldless rfl (List.mem_singleton.mpr rfl) rfl (Or.inl rfl)

/-! C6 — loader map keys and duplicate identifiers -/

/-- First of two plugins declaring the identifier `dup`. -/
def dup_raw_one : RawLintInfo :=
  ⟨some "dup", some "first detector", some "s1", some "l1", some "low",
    some "h1", some "c1"⟩

/-- Second of two plugins declaring the identifier `dup`. -/
def dup_raw_two : RawLintInfo :=
  ⟨some "dup", some "second detector", some "s2", some "l2", some "high",
    some "h2", some "c2"⟩

/-- C6 counterexample: two plugins declare the same identifier `dup`; the
loader returns `Ok` — no duplicate-identifier condition is surfaced — and the
store holds only the metadata of the second plugin, the entry of the first
having been silently overwritten. -/
theorem get_detectors_info_duplicate_id_cex :
    get_detectors_info [("p1.so", DylibOutcome.loaded dup_raw_one false),
        ("p2.so", DylibOutcome.loaded dup_raw_two false)]
      = Except.ok ([("dup",
          ⟨"dup", "second detector", "s2", "l2", "high", "h2", "c2"⟩)], []) :=
  rfl

/-- The validated metadata records declared by a plugin batch, in order,
when every plugin would load and decode. -/
def loaded_infos : List (String × DylibOutcome) → Option (List LintInfo)
  | [] => some []
  | (_, outcome) :: rest =>
      match outcome with
      | .loaded raw _ =>
          match lintInfoTryFrom raw with
          | .ok i => (loaded_infos rest).map (fun tl => i :: tl)
          | .error _ => none
      | _ => none

theorem get_detectors_info_go_get (k : String) :
    ∀ (plugins : List (String × DylibOutcome))
      (acc1 : List (String × LintInfo)) (acc2 : List (String × String))
      (store : List (String × LintInfo)) (customs : List (String × String))
      (infos : List LintInfo),
      get_detectors_info_go plugins acc1 acc2 = Except.ok (store, customs) →
      loaded_infos plugins = some infos →
      amGet store k =
        match infos.reverse.find? (fun i => i.id = k) with
        | some i => some i
        | none => amGet acc1 k := by
  intro plugins
  induction plugins with
  | nil =>
      intro acc1 acc2 store customs infos h hi
      rw [loaded_infos] at hi
      rw [get_detectors_info_go] at h
      simp only [Except.ok.injEq, Prod.mk.injEq] at h
      obtain ⟨h1, _⟩ := h
      simp only [Option.some_inj] at hi
      subst h1; subst hi
      simp
  | cons hd rest ih =>
      intro acc1 acc2 store customs infos h hi
      obtain ⟨path, outcome⟩ := hd
      cases outcome with
      | openErr e => rw [get_detectors_info_go] at h; simp at h
      | lintInfoSymErr e => rw [get_detectors_info_go] at h; simp at h
      | loaded raw hasCustomDetector =>
          cases htf : lintInfoTryFrom raw with
          | error e =>
              rw [get_detectors_info_go] at h
              rw [htf] at h
              simp at h
          | ok i =>
              rw [get_detectors_info_go] at h
              rw [htf] at h
              rw [loaded_infos, htf] at hi
              cases h2 : loaded_infos rest with
              | none => rw [h2] at hi; simp at hi
              | some tl =>
                  rw [h2] at hi
                  simp only [Option.map_some', Option.some_inj] at hi
                  subst hi
                  have := ih (amInsert acc1 i.id i)
                    (if hasCustomDetector then amInsert acc2 i.id path
                      else acc2) store customs tl h h2
                  rw [this]
                  rw [List.reverse_cons, List.find?_append]
                  cases hfind : tl.reverse.find? (fun j => j.id = k) with
                  | some j => simp [hfind]
                  | none =>
                      by_cases hik : i.id = k
                      · subst hik
                        simp [hfind, List.find?, amGet_amInsert_self]
                      · simp [hfind, List.find?, hik,
                          amGet_amInsert_ne acc1 i.id k i
                            (fun hh => hik hh.symm)]

/-- C6 (amended): the loader keys the metadata store by the identifier each
plugin declares in its own metadata, never by the library file name — the
entry at key `k` is exactly the last declared record with id `k`, so duplicate
identifiers are silently overwritten (last plugin wins) instead of being
surfaced. -/
theorem get_detectors_info_keyed_by_declared_id
    (plugins : List (String × DylibOutcome))
    (store : List (String × LintInfo)) (customs : List (String × String))
    (infos : List LintInfo) (k : String)
    (h : get_detectors_info plugins = Except.ok (store, customs))
    (hi : loaded_infos plugins = some infos) :
    amGet store k = infos.reverse.find? (fun i => i.id = k) := by
  have := get_detectors_info_go_get k plugins [] [] store customs infos h hi
  rw [this]
  cases infos.reverse.find? (fun i => i.id = k) <;> rfl

/-- C6 amended-claim witness: at the duplicate key `dup` the store holds the
record of the last plugin declaring it. -/
theorem get_detectors_info_keyed_by_declared_id_witness :
    amGet [("dup",
        (⟨"dup", "second detector", "s2", "l2", "high", "h2", "c2"⟩
          : LintInfo))] "dup"
      = [(⟨"dup", "first detector", "s1", "l1", "low", "h1", "c1"⟩ : LintInfo),
          ⟨"dup", "second detector", "s2", "l2", "high", "h2",
            "c2"⟩].reverse.find? (fun i => i.id = "dup") :=
  get_detectors_info_keyed_by_declared_id
    [("p1.so", DylibOutcome.loaded dup_raw_one false),
      ("p2.so", DylibOutcome.loaded dup_raw_two false)]
    [("dup", ⟨"dup", "second detector", "s2", "l2", "high", "h2", "c2"⟩)] []
    [⟨"dup", "first detector", "s1", "l1", "low", "h1", "c1"⟩,
      ⟨"dup", "second detector", "s2", "l2", "high", "h2", "c2"⟩]
    "dup" rfl rfl

/-! C7 — report summary counts -/

theorem summarize_findings_get (cats : List Category)
    (findings : List Finding) (k : String) :
    amGet (summarize_findings cats findings) k =
      match cats.find? (fun c => c.id = k) with
      | none => none
      | some c =>
          if (findings.filter (fun f => f.category_id = k)).length = 0
          then none
          else some ((findings.filter (fun f => f.category_id = k)).length,
            catSeverity c) := by
  induction findings using List.reverseRecOn with
  | nil => cases hfind : cats.find? (fun c => c.id = k) <;>
      simp [summarize_findings, amGet, hfind]
  | append_singleton fs f ih =>
      rw [summarize_findings, List.foldl_append, List.foldl_cons,
        List.foldl_nil]
      rw [summarize_findings] at ih
      rw [summarize_step]
      cases hfc : cats.find? (fun c => c.id = f.category_id) with
      | none =>
          by_cases hk : f.category_id = k
          · subst hk
            rw [hfc] at ih ⊢
            simpa using ih
          · have hfilter : (fs ++ [f]).filter (fun g => g.category_id = k)
                = fs.filter (fun g => g.category_id = k) := by
              simp [List.filter_append, hk]
            rw [hfilter]
            exact ih
      | some c =>
          have hcid : c.id = f.category_id := by
            have := List.find?_some hfc
            simpa using this
          by_cases hk : f.category_id = k
          · subst hk
            rw [hfc] at ih ⊢
            simp only at ih ⊢
            rw [hcid]
            have hfilter : (fs ++ [f]).filter
                  (fun g => g.category_id = f.category_id)
                = fs.filter (fun g => g.category_id = f.category_id)
                    ++ [f] := by
              simp [List.filter_append]
            rw [hfilter]
            cases hget : amGet (List.foldl (summarize_step cats) [] fs)
                f.category_id with
            | none =>
                rw [hget] at ih
                have hcnt : (fs.filter
                    (fun g => g.category_id = f.category_id)).length = 0 := by
                  by_contra hne
                  rw [if_neg hne] at ih
                  exact Option.noConfusion ih
                simp only
                rw [amGet_amInsert_self]
                simp [hcnt]
            | some p =>
                obtain ⟨n, sev⟩ := p
                rw [hget] at ih
                have hcnt : ¬((fs.filter
                    (fun g => g.category_id = f.category_id)).length = 0) := by
                  intro h0
                  rw [if_pos h0] at ih
                  exact Option.noConfusion ih
                rw [if_neg hcnt] at ih
                have hn : (n, sev) = ((fs.filter
                      (fun g => g.category_id = f.category_id)).length,
                    catSeverity c) := Option.some_inj.mp ih
                have hn1 : n = (fs.filter
                    (fun g => g.category_id = f.category_id)).length :=
                  congrArg Prod.fst hn
                have hn2 : sev = catSeverity c := congrArg Prod.snd hn
                simp only
                rw [amGet_amInsert_self, hn1, hn2]
                have hlen : (fs.filter
                      (fun g => g.category_id = f.category_id) ++ [f]).length
                    = (fs.filter
                      (fun g => g.category_id = f.category_id)).length + 1 := by
                  simp
                rw [hlen]
                rw [if_neg (by omega)]
          · have hfilter : (fs ++ [f]).filter (fun g => g.category_id = k)
                = fs.filter (fun g => g.category_id = k) := by
              simp [List.filter_append, hk]
            rw [hfilter, ← ih]
            simp only
            have hne : k ≠ c.id := by
              rw [hcid]
              exact fun hh => hk hh.symm
            cases hget : amGet (List.foldl (summarize_step cats) [] fs)
                c.id with
            | none =>
                simp only
                rw [amGet_amInsert_ne _ _ _ _ hne]
            | some p =>
                obtain ⟨n, sev⟩ := p
                simp only
                rw [amGet_amInsert_ne _ _ _ _ hne]

theorem find_category_self (cats : List Category) (c : Category)
    (hnd : (cats.map (fun x => x.id)).Nodup) (hc : c ∈ cats) :
    cats.find? (fun x => x.id = c.id) = some c := by
  induction cats with
  | nil => cases hc
  | cons d rest ih =>
      rw [List.map_cons, List.nodup_cons] at hnd
      obtain ⟨hnotin, hnd'⟩ := hnd
      rcases List.mem_cons.mp hc with rfl | hmem
      · simp [List.find?]
      · have hne : ¬(d.id = c.id) := by
          intro he
          exact hnotin (he ▸ List.mem_map_of_mem (fun x => x.id) hmem)
        rw [List.find?, decide_eq_false hne]
        exact ih hnd' hmem

theorem sum_filterMap_counts {α β : Type} (g : α → Option β) (val : β → Nat)
    (h : α → Nat) :
    ∀ l : List α, (∀ c ∈ l, ((g c).map val).getD 0 = h c) →
      ((l.filterMap g).map val).sum = (l.map h).sum := by
  intro l
  induction l with
  | nil => intro _; rfl
  | cons c rest ih =>
      intro hpt
      have hc := hpt c (List.mem_cons_self _ _)
      have hrest := ih (fun x hx => hpt x (List.mem_cons_of_mem _ hx))
      cases hg : g c with
      | none =>
          rw [hg] at hc
          simp only [Option.map_none', Option.getD_none] at hc
          simp [List.filterMap_cons, hg, hrest, ← hc]
      | some b =>
          rw [hg] at hc
          simp only [Option.map_some', Option.getD_some] at hc
          simp [List.filterMap_cons, hg, hrest, hc]

theorem length_filter_or {α : Type} (p q : α → Bool) :
    ∀ l : List α, (∀ x ∈ l, p x = true → q x = false) →
      (l.filter (fun x => p x || q x)).length
        = (l.filter p).length + (l.filter q).length := by
  intro l
  induction l with
  | nil => intro _; rfl
  | cons x xs ih =>
      intro hdisj
      have hx := hdisj x (List.mem_cons_self _ _)
      have ihx := ih (fun y hy => hdisj y (List.mem_cons_of_mem _ hy))
      cases hp : p x with
      | true =>
          have hq : q x = false := hx hp
          simp [List.filter_cons, hp, hq, ihx]
          omega
      | false =>
          cases hq : q x with
          | true => simp [List.filter_cons, hp, hq, ihx]; omega
          | false => simp [List.filter_cons, hp, hq, ihx]

theorem sum_counts_eq_matched (fnd : List Finding) :
    ∀ cats : List Category, (cats.map (fun c => c.id)).Nodup →
      (cats.map (fun c =>
          (fnd.filter (fun f => f.category_id = c.id)).length)).sum
        = (fnd.filter
            (fun f => cats.any (fun c => f.category_id = c.id))).length := by
  intro cats
  induction cats with
  | nil => intro _; simp
  | cons c rest ih =>
      intro hnd
      rw [List.map_cons, List.nodup_cons] at hnd
      obtain ⟨hnotin, hnd'⟩ := hnd
      have hdisj : ∀ f ∈ fnd, (decide (f.category_id = c.id)) = true →
          (rest.any (fun c' => f.category_id = c'.id)) = false := by
        intro f _ hp
        have hfc : f.category_id = c.id := of_decide_eq_true hp
        by_contra hq
        rw [Bool.not_eq_false] at hq
        obtain ⟨c', hc', hc'eq⟩ := List.any_eq_true.mp hq
        have : c.id ∈ rest.map (fun x => x.id) := by
          have he : c'.id = c.id := by
            have := of_decide_eq_true hc'eq
            rw [← this, hfc]
          exact he ▸ List.mem_map_of_mem (fun x => x.id) hc'
        exact hnotin this
      have hor := length_filter_or (fun f => decide (f.category_id = c.id))
        (fun f => rest.any (fun c' => f.category_id = c'.id)) fnd hdisj
      rw [List.map_cons, List.sum_cons, ih hnd']
      have hpred : (fnd.filter
            (fun f => (c :: rest).any (fun c' => f.category_id = c'.id)))
          = fnd.filter (fun f => decide (f.category_id = c.id)
              || rest.any (fun c' => f.category_id = c'.id)) := by
        simp only [List.any_cons]
      rw [hpred, hor]

theorem generate_summary_context_mem (r : Report)
    (hnd : (r.categories.map (fun c => c.id)).Nodup) :
    ∀ sc ∈ (generate_summary_context r).categories,
      ∃ c ∈ r.categories, sc.name = c.name ∧
        sc.results_count
          = (r.findings.filter (fun f => f.category_id = c.id)).length ∧
        sc.severity = catSeverity c := by
  intro sc hsc
  rw [generate_summary_context] at hsc
  simp only [List.mem_filterMap] at hsc
  obtain ⟨c, hc, hg⟩ := hsc
  cases hget : amGet (summarize_findings r.categories r.findings) c.id with
  | none => rw [hget] at hg; exact Option.noConfusion hg
  | some p =>
      obtain ⟨n, sev⟩ := p
      rw [hget] at hg
      simp only [Option.map_some', Option.some_inj] at hg
      rw [summarize_findings_get, find_category_self r.categories c hnd hc]
        at hget
      simp only at hget
      have hcnt : ¬((r.findings.filter
          (fun f => f.category_id = c.id)).length = 0) := by
        intro h0
        rw [if_pos h0] at hget
        exact Option.noConfusion hget
      rw [if_neg hcnt] at hget
      have hn : (n, sev) = ((r.findings.filter
            (fun f => f.category_id = c.id)).length, catSeverity c) :=
        (Option.some_inj.mp hget).symm
      have hn1 : n = (r.findings.filter
          (fun f => f.category_id = c.id)).length := congrArg Prod.fst hn
      have hn2 : sev = catSeverity c := congrArg Prod.snd hn
      refine ⟨c, hc, ?_, ?_, ?_⟩ <;> rw [← hg] <;> simp [hn1, hn2]

theorem generate_summary_context_sum (r : Report)
    (hnd : (r.categories.map (fun c => c.id)).Nodup) :
    ((generate_summary_context r).categories.map
        (fun sc => sc.results_count)).sum
      = (r.findings.filter
          (fun f => r.categories.any (fun c => f.category_id = c.id))).length
      := by
  have hpt : ∀ c ∈ r.categories,
      (((amGet (summarize_findings r.categories r.findings) c.id).map
          (fun p =>
            ({ name := c.name
               link := sanitize_category_name c.name
               results_count := p.1
               severity := p.2 } : SummaryCategory))).map
        (fun sc => sc.results_count)).getD 0
      = (r.findings.filter (fun f => f.category_id = c.id)).length := by
    intro c hc
    rw [summarize_findings_get, find_category_self r.categories c hnd hc]
    simp only
    by_cases h0 : (r.findings.filter
        (fun f => f.category_id = c.id)).length = 0
    · rw [if_pos h0]
      simp [h0]
    · rw [if_neg h0]
      simp
  rw [generate_summary_context]
  simp only
  have hsum := sum_filterMap_counts
    (fun c : Category =>
      (amGet (summarize_findings r.categories r.findings) c.id).map
        (fun p =>
          ({ name := c.name
             link := sanitize_category_name c.name
             results_count := p.1
             severity := p.2 } : SummaryCategory)))
    (fun sc => sc.results_count)
    (fun c => (r.findings.filter (fun f => f.category_id = c.id)).length)
    r.categories hpt
  rw [hsum]
  exact sum_counts_eq_matched r.findings r.categories hnd

/-- An out-of-category finding for the C7 counterexample. -/
def demo_report_unmatched : Report :=
  { date := "2026-02-03", categories := [],
    findings := [{ category_id := "x" }] }

/-- C7 counterexample: a report with one trustworthy finding whose category id
matches no category — the summary is empty, so the sum of the summary counts
is 0 while the trustworthy-finding total is 1. -/
theorem summary_sum_mismatch_cex :
    ((generate_summary_context demo_report_unmatched).categories.map
        (fun sc => sc.results_count)).sum = 0 ∧
    demo_report_unmatched.findings.length = 1 ∧
    ((generate_summary_context demo_report_unmatched).categories.map
        (fun sc => sc.results_count)).sum
      ≠ demo_report_unmatched.findings.length :=
  ⟨rfl, rfl, fun h => Nat.zero_ne_one h⟩

/-- C7 (amended): under distinct category ids, every emitted summary entry
counts exactly the trustworthy findings of its category (severity from the
first vulnerability descriptor, empty when there is none), and the summary
counts sum to the number of trustworthy findings whose category id appears in
the category list — findings matching no category are excluded from all
counts. -/
theorem generate_summary_context_counts (r : Report)
    (hnd : (r.categories.map (fun c => c.id)).Nodup) :
    (∀ sc ∈ (generate_summary_context r).categories,
      ∃ c ∈ r.categories, sc.name = c.name ∧
        sc.results_count
          = (r.findings.filter (fun f => f.category_id = c.id)).length ∧
        sc.severity = catSeverity c ∧
        (c.vulnerabilities = [] → sc.severity = "")) ∧
    ((generate_summary_context r).categories.map
        (fun sc => sc.results_count)).sum
      = (r.findings.filter
          (fun f => r.categories.any (fun c => f.category_id = c.id))).length
      := by
  constructor
  · intro sc hsc
    obtain ⟨c, hc, h1, h2, h3⟩ := generate_summary_context_mem r hnd sc hsc
    refine ⟨c, hc, h1, h2, h3, ?_⟩
    intro hnil
    rw [h3, catSeverity, hnil]
    rfl
  · exact generate_summary_context_sum r hnd

/-- Demo categories and report for the C7 witness. -/
def demo_report_matched : Report :=
  { date := "2026-02-03"
    categories := [{ id := "a", name := "Cat A", vulnerabilities := [] },
      { id := "b", name := "Cat B",
        vulnerabilities := [{ severity := "critical" }] }]
    findings := [{ category_id := "a" }, { category_id := "a" },
      { category_id := "b" }] }

/-- C7 amended-claim witness on a two-category report. -/
theorem generate_summary_context_counts_witness :
    (∀ sc ∈ (generate_summary_context demo_report_matched).categories,
      ∃ c ∈ demo_report_matched.categories, sc.name = c.name ∧
        sc.results_count
          = (demo_report_matched.findings.filter
              (fun f => f.category_id = c.id)).length ∧
        sc.severity = catSeverity c ∧
        (c.vulnerabilities = [] → sc.severity = "")) ∧
    ((generate_summary_context demo_report_matched).categories.map
        (fun sc => sc.results_count)).sum
      = (demo_report_matched.findings.filter
          (fun f => demo_report_matched.categories.any
            (fun c => f.category_id = c.id))).length :=
  generate_summary_context_counts demo_report_matched (by decide)

end ScoutAudit
